import Mathlib

/-!
Shallow embedding of the DarkWS client (src/index.ts) and proofs about it.

The embedding models the DarkWS class as a pure state machine: the instance
fields become a ClientState record, each WebSocket event handler and public
method becomes a state transformer that also emits a list of observable
effects (sends, scheduled timers, interceptor invocations, console warnings),
and the JavaScript runtime pieces the code leans on (Promise settlement,
string split with a limit, Array.prototype.splice, Number.prototype.toString
with radix 26) are spelled out as explicit Lean functions with the exact
JavaScript semantics.  JSON.parse is an external collaborator of the
repository and is passed in as a parameter where the message handler needs it.
-/

set_option autoImplicit false

namespace DarkWS

mutual
/-- JSON values, as produced by the external JSON.parse collaborator.
Mutual with bespoke list types so that decidable equality can be derived. -/
inductive Json where
  | null
  | bool (b : Bool)
  | num (n : Int)
  | str (s : String)
  | arr (elems : JsonList)
  | obj (fields : JsonFields)
deriving DecidableEq
inductive JsonList where
  | nil
  | cons (head : Json) (tail : JsonList)
deriving DecidableEq
inductive JsonFields where
  | nil
  | cons (key : String) (value : Json) (tail : JsonFields)
deriving DecidableEq
end

/-- Property access on a JSON object: first field with the given key, as in a
JavaScript object produced by JSON.parse (keys are unique there). -/
def lookupField : JsonFields → String → Option Json
  | JsonFields.nil, _ => none
  | JsonFields.cons k v rest, key => if k = key then some v else lookupField rest key

/-- Property access on an arbitrary JSON value: a JavaScript property read on a
non-object primitive yields undefined (none); on an object it reads the field. -/
def jsGet (d : Json) (k : String) : Option Json :=
  match d with
  | Json.obj fs => lookupField fs k
  | _ => none

/-- JavaScript truthiness of a JSON value. -/
def jsTruthy : Json → Bool
  | Json.null => false
  | Json.bool b => b
  | Json.num n => n ≠ 0
  | Json.str s => s ≠ ""
  | Json.arr _ => true
  | Json.obj _ => true

/-- Truthiness test of the expression data.error?.code from the onmessage
handler (src/index.ts line 177).  On data = null the property read
data.error throws a TypeError (modelled as the error case); on any other
non-object the read yields undefined, hence falsy; the optional chaining
after error never throws. -/
def errCodeTruthy (data : Json) : Except Unit Bool :=
  match data with
  | Json.null => Except.error ()
  | Json.obj fs =>
    match lookupField fs "error" with
    | none => Except.ok false
    | some e =>
      match e with
      | Json.obj efs =>
        match lookupField efs "code" with
        | none => Except.ok false
        | some c => Except.ok (jsTruthy c)
      | _ => Except.ok false
  | _ => Except.ok false

/-- JavaScript String.prototype.split with a single-character separator:
the list of separator-delimited segments, never empty. -/
def splitChar (c : Char) : List Char → List (List Char)
  | [] => [[]]
  | x :: xs =>
    if x = c then [] :: splitChar c xs
    else
      match splitChar c xs with
      | [] => [[x]]
      | r :: rs => (x :: r) :: rs

/-- JavaScript text.split(sep, 2): the split segments truncated to the first
two, exactly as the limit argument of String.prototype.split behaves
(the remainder of the string is discarded, not appended to the second part). -/
def jsSplit2 (s : String) : List String :=
  ((splitChar '|' s.toList).take 2).map (fun l => String.mk l)

/-- Destructuring on src/index.ts line 168: the pattern
const [key = at-sign, _data] = event.data.split(sep, 2) gives the first
segment as the key (the default applies only when the element is absent,
which split never produces) and the optional second segment as the payload
text handed to JSON.parse. -/
def decodeSplit (s : String) : String × Option String :=
  let parts := jsSplit2 s
  (parts.headD "@", parts.get? 1)

/-- Modelled from the spec: the inbound decoding rule as the specification
words it, for comparison with decodeSplit.  Split on the first delimiter
only, the key defaulting to the broadcast key when no delimiter is present,
and the entire remaining text (second delimiters included) as the payload. -/
def decodeSplitSpec (s : String) : String × Option String :=
  let cs := s.toList
  if '|' ∈ cs then
    (String.mk (cs.takeWhile (fun ch => decide (ch ≠ '|'))),
     some (String.mk ((cs.dropWhile (fun ch => decide (ch ≠ '|'))).drop 1)))
  else ("@", some s)

/-- Digit characters of radix 26 as JavaScript Number.prototype.toString
produces them: 0-9 then a-p. -/
def digitChar26 (d : Nat) : Char :=
  if d < 10 then Char.ofNat (48 + d) else Char.ofNat (97 + (d - 10))

/-- Radix-26 rendering of a Math.random() result in the interval from zero
(inclusive) to one (exclusive), given the base-26 digits of its fractional
expansion: the literal 0 for zero, otherwise 0. followed by the digits.
This mirrors Number.prototype.toString(26) on such values, which always
yields either the single character 0 or a 0. prefix followed by radix-26
digit characters. -/
def toStringBase26 (frac : List Nat) : String :=
  if frac = [] then "0" else "0." ++ String.mk (frac.map digitChar26)

/-- JavaScript String.prototype.substring(a, b) for a less than or equal
to b: the characters from index a (inclusive) to b (exclusive), with both
bounds clamped to the string length. -/
def jsSubstring (s : String) (a b : Nat) : String :=
  String.mk ((s.toList.drop a).take (b - a))

/-- Correlation key generation (src/index.ts lines 114-116):
Math.random().toString(26).substring(2, 8), parameterised by the base-26
fractional digits of the Math.random() result. -/
def generateKey (frac : List Nat) : String :=
  jsSubstring (toStringBase26 frac) 2 8

/-- JavaScript Array.prototype.indexOf: index of the first occurrence, or -1. -/
def jsIndexOf (v : Nat) : List Nat → Int
  | [] => -1
  | x :: xs =>
    if x = v then 0
    else
      let r := jsIndexOf v xs
      if r = -1 then -1 else r + 1

/-- JavaScript Array.prototype.splice(start, 1) viewed as the resulting
array: a negative start counts from the end (clamped at zero), a start past
the end deletes nothing, and otherwise the one element at the effective
start index is removed. -/
def jsSpliceRemove1 (xs : List Nat) (start : Int) : List Nat :=
  let len : Int := xs.length
  let s : Nat := (if start < 0 then max (len + start) 0 else min start len).toNat
  xs.take s ++ xs.drop (s + 1)

/-- Subscription (src/index.ts line 255): group.push(handler), on the
category's handler list, handlers named by identity tokens. -/
def intercept (group : List Nat) (handler : Nat) : List Nat :=
  group ++ [handler]

/-- The unsubscribe action returned by intercept (src/index.ts line 256):
group.splice(group.indexOf(handler), 1) applied to the current state of the
category's handler list. -/
def unsubscribe (group : List Nat) (handler : Nat) : List Nat :=
  jsSpliceRemove1 group (jsIndexOf handler group)

/-- Construction-time configuration (src/index.ts lines 11-48), immutable
after construction. -/
structure DarkWSOptions where
  protocol : String
  host : String
  port : Option Nat
  path : String
  reconnect : Bool
  reconnectTimeout : Nat
  reconnectAttempts : Nat
  requestTimeout : Nat
  debug : Bool
deriving DecidableEq

/-- One entry of the requests record (src/index.ts line 91), defunctionalised:
the stored resolve closure is (args) => clearTimeout(handle); resolve(args)
when a timeout timer was scheduled, so the entry remembers the future it
settles and the timer handle the resolve path clears; the stored reject is
the raw promise reject and clears nothing. -/
structure Entry where
  future : Nat
  timer : Option Nat
deriving DecidableEq

/-- Settlement state of a promise: a promise settles at most once, later
resolve or reject calls are ignored. -/
inductive FState where
  | pending
  | resolved (v : Json)
  | rejected (e : Json)
deriving DecidableEq

/-- The six interceptor categories (src/index.ts lines 50-57). -/
inductive Cat where
  | open_
  | close
  | error
  | reconnect
  | message
  | broadcast
deriving DecidableEq

/-- Argument shape handed to an interceptor dispatch. -/
inductive EvArg where
  | rawEvent
  | nat (n : Nat)
  | json (d : Json)
deriving DecidableEq

/-- Observable effects of a handler or method run. -/
inductive Ev where
  | fire (c : Cat) (a : EvArg)
  | invoke (h : Nat)
  | send (s : String)
  | schedConnect (delayMs : Nat)
  | schedTimer (handle : Nat) (delayMs : Nat)
  | clearedInterval (handle : Nat)
  | warn
deriving DecidableEq

/-- Instance state of a DarkWS object (src/index.ts lines 88-101), together
with the runtime bookkeeping the code relies on: the promise store for
request futures, the set of scheduled-and-uncancelled request timeout
timers with the key and future their callback captured, the open-wait
shared promise and its polling interval, and fresh-id counters for timer
handles and futures. -/
structure ClientState where
  options : DarkWSOptions
  reconnectAttempt : Nat
  requests : List (String × Entry)
  futures : List (Nat × FState)
  activeTimers : List (Nat × String × Nat)
  openHs : List Nat
  closeHs : List Nat
  errorHs : List Nat
  reconnectHs : List Nat
  messageHs : List Nat
  broadcastHs : List Nat
  connectingPromise : Option Nat
  poll : Option (Nat × Nat)
  wfFutures : List (Nat × Bool)
  socketOpen : Bool
  nextTimer : Nat
  nextFuture : Nat
  nextWf : Nat
deriving DecidableEq

/-- Lookup in the requests record by correlation key. -/
def lookupReq : List (String × Entry) → String → Option Entry
  | [], _ => none
  | (k, e) :: rest, key => if k = key then some e else lookupReq rest key

/-- The delete operator on the requests record: the key is removed. -/
def removeKey : List (String × Entry) → String → List (String × Entry)
  | [], _ => []
  | (k, e) :: rest, key =>
    if k = key then removeKey rest key else (k, e) :: removeKey rest key

/-- Lookup of a future's settlement state. -/
def lookupFut : List (Nat × FState) → Nat → Option FState
  | [], _ => none
  | (id, s) :: rest, f => if id = f then some s else lookupFut rest f

/-- Settling a promise: the future transitions only out of pending; a
resolve or reject on an already settled promise is ignored. -/
def settle (f : Nat) (st : FState) : List (Nat × FState) → List (Nat × FState)
  | [] => []
  | (id, s) :: rest =>
    if id = f then
      (id, match s with | FState.pending => st | other => other) :: rest
    else (id, s) :: settle f st rest

/-- The clearTimeout call of the stored resolve closure: removes the captured
timer handle, if any, from the scheduled timers. -/
def clearTimerH (t : Option Nat) (ts : List (Nat × String × Nat)) : List (Nat × String × Nat) :=
  match t with
  | none => ts
  | some h => ts.filter (fun p => decide (p.1 ≠ h))

/-- The loop body of callInterceptors (src/index.ts lines 259-265): each
handler of the category's list is invoked in order; the behaviour
environment says whether a handler returns or throws; a throw aborts the
loop and propagates out of callInterceptors, which catches nothing.
Returns the invoked handlers in order together with the propagated
exception, if any. -/
def callInterceptorsList (beh : Nat → Option String) : List Nat → List Nat × Option String
  | [] => ([], none)
  | h :: t =>
    match beh h with
    | some e => ([h], some e)
    | none =>
      let r := callInterceptorsList beh t
      (h :: r.1, r.2)

/-- A callInterceptors call site: records the category fired with its
argument, then the individual handler invocations, and propagates a
handler's exception. -/
def dispatch (beh : Nat → Option String) (c : Cat) (a : EvArg) (hs : List Nat) :
    List Ev × Option String :=
  let r := callInterceptorsList beh hs
  (Ev.fire c a :: r.1.map Ev.invoke, r.2)

/-- The onopen handler (src/index.ts lines 128-132): logs, then fires the
open category.  It touches no other instance state; in particular it does
not write reconnectAttempt. -/
def onopen (beh : Nat → Option String) (cs : ClientState) :
    ClientState × List Ev × Option String :=
  let d := dispatch beh Cat.open_ EvArg.rawEvent cs.openHs
  (cs, d.1, d.2)

/-- A CloseEvent as the onclose handler reads it. -/
structure CloseEvent where
  wasClean : Bool
  code : Nat
  reason : String
deriving DecidableEq

/-- The final close dispatch of the onclose handler: it runs only when no
reconnect handler threw (an exception from the reconnect dispatch propagates
out of the handler and skips the close dispatch). -/
def closeAfter (beh : Nat → Option String) (cs : ClientState) (r : Option String) :
    List Ev × Option String :=
  match r with
  | some e => ([], some e)
  | none => dispatch beh Cat.close EvArg.rawEvent cs.closeHs

/-- The onclose handler (src/index.ts lines 134-151).  On a clean close
only the close category fires.  On an unclean close, when reconnection is
enabled and the attempt counter is below the configured limit, exactly one
connect call is scheduled after the configured delay, the counter is
incremented, and the reconnect category fires with the incremented counter;
otherwise nothing is scheduled.  The close category fires after the retry
decision. -/
def onclose (beh : Nat → Option String) (cs : ClientState) (ev : CloseEvent) :
    ClientState × List Ev × Option String :=
  if ev.wasClean then
    let d := dispatch beh Cat.close EvArg.rawEvent cs.closeHs
    (cs, d.1, d.2)
  else if cs.options.reconnect ∧ cs.reconnectAttempt < cs.options.reconnectAttempts then
    let d1 := dispatch beh Cat.reconnect (EvArg.nat (cs.reconnectAttempt + 1)) cs.reconnectHs
    let d2 := closeAfter beh cs d1.2
    ({ cs with reconnectAttempt := cs.reconnectAttempt + 1 },
     Ev.schedConnect cs.options.reconnectTimeout :: d1.1 ++ d2.1, d2.2)
  else
    let d := dispatch beh Cat.close EvArg.rawEvent cs.closeHs
    (cs, d.1, d.2)

/-- Routing of a decoded inbound frame (src/index.ts lines 171-185): the
broadcast key fires the broadcast category; any other key is looked up in
the requests record.  A found entry is settled - rejected when the payload
carries a truthy nested error code, resolved otherwise - and deleted; only
the resolve path clears the entry's timeout timer.  The message category
fires after settlement, found or not.  The returned exception is whatever
escaped inside the surrounding try block. -/
def routeDecoded (beh : Nat → Option String) (cs : ClientState) (key : String) (data : Json) :
    ClientState × List Ev × Option String :=
  if key = "@" then
    let d := dispatch beh Cat.broadcast (EvArg.json data) cs.broadcastHs
    (cs, d.1, d.2)
  else
    match lookupReq cs.requests key with
    | some entry =>
      match errCodeTruthy data with
      | Except.error _ => (cs, [], some "TypeError")
      | Except.ok isErr =>
        let cs' :=
          if isErr then
            { cs with futures := settle entry.future (FState.rejected data) cs.futures,
                      requests := removeKey cs.requests key }
          else
            { cs with futures := settle entry.future (FState.resolved data) cs.futures,
                      activeTimers := clearTimerH entry.timer cs.activeTimers,
                      requests := removeKey cs.requests key }
        let d := dispatch beh Cat.message (EvArg.json data) cs.messageHs
        (cs', d.1, d.2)
    | none =>
      let d := dispatch beh Cat.message (EvArg.json data) cs.messageHs
      (cs, d.1, d.2)

/-- The catch clause of the onmessage handler: whatever exception escaped
inside the try block is swallowed and becomes a console warning; state
changes already made before the throw persist. -/
def wrapCatch (r : ClientState × List Ev × Option String) : ClientState × List Ev :=
  match r.2.2 with
  | some _ => (r.1, r.2.1 ++ [Ev.warn])
  | none => (r.1, r.2.1)

/-- The onmessage handler (src/index.ts lines 159-189).  The exact literal
ping sends one pong and returns before any decoding.  Otherwise the text is
split, the payload text is parsed by the external JSON.parse (absence of a
payload segment makes JSON.parse throw on the text undefined), and the
decoded value is routed; any exception of the try block - a parse failure,
the property read on a null payload, or an exception thrown by a broadcast
or message interceptor - is caught and turned into a console warning. -/
def onmessage (parse : String → Except Unit Json) (beh : Nat → Option String)
    (cs : ClientState) (text : String) : ClientState × List Ev :=
  if text = "ping" then (cs, [Ev.send "pong"])
  else
    match (match (decodeSplit text).2 with
           | none => Except.error ()
           | some pd => parse pd : Except Unit Json) with
    | Except.error _ => (cs, [Ev.warn])
    | Except.ok data => wrapCatch (routeDecoded beh cs (decodeSplit text).1 data)

/-- The payload of the timeout rejection (src/index.ts line 230). -/
def timeoutJson : Json :=
  Json.obj (JsonFields.cons "code" (Json.str "timeout")
    (JsonFields.cons "message" (Json.str "Request cancelled by timeout") JsonFields.nil))

/-- The continuation of request after the frame is handed to the transport
(src/index.ts lines 227-242): with a nonzero configured request timeout a
timeout timer is scheduled and the entry stores the new future and the
timer handle its resolve closure clears; with a zero timeout no timer
exists.  Either way the entry is written into the requests record under the
generated key. -/
def registerRequest (cs : ClientState) (key : String) : ClientState × List Ev :=
  if cs.options.requestTimeout ≠ 0 then
    ({ cs with
        requests := (key, Entry.mk cs.nextFuture (some cs.nextTimer)) :: removeKey cs.requests key,
        activeTimers := cs.activeTimers ++ [(cs.nextTimer, key, cs.nextFuture)],
        futures := cs.futures ++ [(cs.nextFuture, FState.pending)],
        nextTimer := cs.nextTimer + 1,
        nextFuture := cs.nextFuture + 1 },
     [Ev.schedTimer cs.nextTimer cs.options.requestTimeout])
  else
    ({ cs with
        requests := (key, Entry.mk cs.nextFuture none) :: removeKey cs.requests key,
        futures := cs.futures ++ [(cs.nextFuture, FState.pending)],
        nextFuture := cs.nextFuture + 1 }, [])

/-- Firing of a scheduled request timeout timer (src/index.ts lines 228-231):
the callback deletes the entry under its captured key and rejects the
captured promise with the timeout payload.  A cleared timer never fires;
firing consumes the timer. -/
def timerFire (cs : ClientState) (h : Nat) : ClientState :=
  match cs.activeTimers.find? (fun p => decide (p.1 = h)) with
  | none => cs
  | some t =>
    { cs with
        activeTimers := cs.activeTimers.filter (fun p => decide (p.1 ≠ h)),
        requests := removeKey cs.requests t.2.1,
        futures := settle t.2.2 (FState.rejected timeoutJson) cs.futures }

/-- waitForConnection (src/index.ts lines 192-202): an existing shared
pending promise is returned as is; otherwise a fresh promise is created,
stored in connectingPromise, and a polling interval is started whose
closure captures the interval handle and the new promise's resolve. -/
def waitForConnection (cs : ClientState) : ClientState × Nat :=
  match cs.connectingPromise with
  | some f => (cs, f)
  | none =>
    ({ cs with
        connectingPromise := some cs.nextWf,
        wfFutures := cs.wfFutures ++ [(cs.nextWf, false)],
        poll := some (cs.nextTimer, cs.nextWf),
        nextWf := cs.nextWf + 1,
        nextTimer := cs.nextTimer + 1 }, cs.nextWf)

/-- Resolution of an open-wait promise. -/
def resolveWf (f : Nat) (fs : List (Nat × Bool)) : List (Nat × Bool) :=
  fs.map (fun p => if p.1 = f then (p.1, true) else p)

/-- Whether an open-wait promise has resolved. -/
def lookupWf : List (Nat × Bool) → Nat → Option Bool
  | [], _ => none
  | (id, b) :: rest, f => if id = f then some b else lookupWf rest f

/-- One tick of the readiness polling interval (src/index.ts lines 194-200):
while the socket is not open the tick does nothing; once the tick observes
the open socket it clears its own interval, resolves the shared promise,
and nulls connectingPromise so a later wait starts fresh.  A cleared
interval never ticks again. -/
def pollTick (cs : ClientState) : ClientState × List Ev :=
  match cs.poll with
  | none => (cs, [])
  | some hf =>
    if cs.socketOpen then
      ({ cs with
          poll := none,
          wfFutures := resolveWf hf.2 cs.wfFutures,
          connectingPromise := none }, [Ev.clearedInterval hf.1])
    else (cs, [])

/-- The socket reaching the Open ready state, as an external transport event. -/
def socketBecomesOpen (cs : ClientState) : ClientState :=
  { cs with socketOpen := true }

/-- Handler behaviour environment in which no handler throws. -/
def behNone : Nat → Option String := fun _ => none

/-- Handler behaviour environment in which handler 0 throws. -/
def behBoom : Nat → Option String := fun h => if h = 0 then some "boom" else none

/-- A JSON.parse stub returning the number one on every input, for concrete runs. -/
def parse1 : String → Except Unit Json := fun _ => Except.ok (Json.num 1)

/-- The documented default option values (src/index.ts lines 71-81), with the
page-derived protocol, host and port fixed to concrete values. -/
def defaultishOptions : DarkWSOptions :=
  DarkWSOptions.mk "ws" "localhost" none "/ws/" true 1000 120 300000 false

/-- A freshly constructed client with no subscribers and no pending work. -/
def baseCs : ClientState :=
  ClientState.mk defaultishOptions 0 [] [] [] [] [] [] [] [] [] none none [] false 0 0 0

/-- A client observed at a successful open that followed two reconnect attempts. -/
def cexCs : ClientState := { baseCs with reconnectAttempt := 2 }

/-- An abnormal close event (for example network loss, code 1006). -/
def cexUnclean : CloseEvent := CloseEvent.mk false 1006 "abnormal"

/-- A client with one subscribed broadcast handler, namely the throwing handler 0. -/
def csC5 : ClientState := { baseCs with broadcastHs := [0] }

/-- A client with one subscribed message handler, namely the throwing handler 0. -/
def csC5m : ClientState := { baseCs with messageHs := [0] }

/-- A client with one pending request under key k, future 0, timeout timer 5. -/
def cs3 : ClientState :=
  { baseCs with
      requests := [("k", Entry.mk 0 (some 5))],
      activeTimers := [(5, "k", 0)],
      futures := [(0, FState.pending)] }

/-- A response payload carrying a truthy nested error code. -/
def errJson : Json :=
  Json.obj (JsonFields.cons "error"
    (Json.obj (JsonFields.cons "code" (Json.str "x") JsonFields.nil)) JsonFields.nil)

end DarkWS

namespace DarkWS

/-- Concatenation of strings concatenates their character lists. -/
theorem toList_append (a b : String) : (a ++ b).toList = a.toList ++ b.toList := by
  cases a; cases b; rfl

/-- Split never returns the empty list of segments. -/
theorem splitChar_ne_nil (c : Char) (l : List Char) : splitChar c l ≠ [] := by
  cases l with
  | nil => simp [splitChar]
  | cons x xs =>
    simp only [splitChar]
    split
    · simp
    · split <;> simp_all

/-- Split of a separator-free string is the whole string as one segment. -/
theorem splitChar_of_not_mem (c : Char) (l : List Char) (h : c ∉ l) :
    splitChar c l = [l] := by
  induction l with
  | nil => rfl
  | cons x xs ih =>
    simp only [List.mem_cons, not_or] at h
    simp only [splitChar]
    rw [if_neg (fun hx => h.1 hx.symm)]
    rw [ih h.2]

/-- Split at the first separator: a separator-free prefix becomes the first
segment and the rest is split on its own. -/
theorem splitChar_append (c : Char) (a b : List Char) (h : c ∉ a) :
    splitChar c (a ++ c :: b) = a :: splitChar c b := by
  induction a with
  | nil => simp [splitChar]
  | cons x xs ih =>
    simp only [List.mem_cons, not_or] at h
    have hxs := ih h.2
    have hne : ¬x = c := fun hx => h.1 hx.symm
    show splitChar c (x :: (xs ++ c :: b)) = (x :: xs) :: splitChar c b
    simp only [splitChar, hxs]
    rw [if_neg hne]

/-- The first split segment is the longest separator-free prefix. -/
theorem splitChar_head (c : Char) (l : List Char) :
    ∃ t, splitChar c l = (l.takeWhile (fun x => decide (x ≠ c))) :: t := by
  induction l with
  | nil => exact ⟨[], rfl⟩
  | cons x xs ih =>
    by_cases hx : x = c
    · subst hx
      refine ⟨splitChar x xs, ?_⟩
      simp [splitChar, List.takeWhile]
    · obtain ⟨t, ht⟩ := ih
      refine ⟨t, ?_⟩
      simp only [splitChar, if_neg hx, ht, List.takeWhile]
      simp [hx]

/-- Dispatch emits only category-fire and handler-invocation events. -/
theorem schedConnect_not_mem_dispatch (beh : Nat → Option String) (c : Cat) (a : EvArg)
    (hs : List Nat) (d : Nat) : Ev.schedConnect d ∉ (dispatch beh c a hs).1 := by
  simp [dispatch, List.mem_cons, List.mem_map]

/-- The trailing close dispatch also emits only fire and invocation events. -/
theorem schedConnect_not_mem_closeAfter (beh : Nat → Option String) (cs : ClientState)
    (r : Option String) (d : Nat) : Ev.schedConnect d ∉ (closeAfter beh cs r).1 := by
  cases r with
  | none => exact schedConnect_not_mem_dispatch beh Cat.close EvArg.rawEvent cs.closeHs d
  | some e => simp [closeAfter]

/-- Shape of the onclose result on an unclean close below the retry limit. -/
theorem onclose_unclean_eq (beh : Nat → Option String) (cs : ClientState) (ev : CloseEvent)
    (h1 : ev.wasClean = false)
    (h2 : cs.options.reconnect = true ∧ cs.reconnectAttempt < cs.options.reconnectAttempts) :
    onclose beh cs ev =
      ({ cs with reconnectAttempt := cs.reconnectAttempt + 1 },
       Ev.schedConnect cs.options.reconnectTimeout ::
         (dispatch beh Cat.reconnect (EvArg.nat (cs.reconnectAttempt + 1)) cs.reconnectHs).1 ++
         (closeAfter beh cs
           (dispatch beh Cat.reconnect (EvArg.nat (cs.reconnectAttempt + 1)) cs.reconnectHs).2).1,
       (closeAfter beh cs
         (dispatch beh Cat.reconnect (EvArg.nat (cs.reconnectAttempt + 1)) cs.reconnectHs).2).2) := by
  unfold onclose
  rw [if_neg (by simp [h1]), if_pos h2]

/-- Event list of the onclose result on an unclean close below the limit. -/
theorem onclose_unclean_events (beh : Nat → Option String) (cs : ClientState) (ev : CloseEvent)
    (h1 : ev.wasClean = false)
    (h2 : cs.options.reconnect = true ∧ cs.reconnectAttempt < cs.options.reconnectAttempts) :
    (onclose beh cs ev).2.1 =
      Ev.schedConnect cs.options.reconnectTimeout ::
        (dispatch beh Cat.reconnect (EvArg.nat (cs.reconnectAttempt + 1)) cs.reconnectHs).1 ++
        (closeAfter beh cs
          (dispatch beh Cat.reconnect (EvArg.nat (cs.reconnectAttempt + 1)) cs.reconnectHs).2).1 := by
  rw [onclose_unclean_eq beh cs ev h1 h2]

/-- Shape of the onclose result when no retry happens on an unclean close. -/
theorem onclose_noretry_eq (beh : Nat → Option String) (cs : ClientState) (ev : CloseEvent)
    (h1 : ev.wasClean = false)
    (h2 : ¬(cs.options.reconnect = true ∧ cs.reconnectAttempt < cs.options.reconnectAttempts)) :
    onclose beh cs ev =
      (cs, (dispatch beh Cat.close EvArg.rawEvent cs.closeHs).1,
       (dispatch beh Cat.close EvArg.rawEvent cs.closeHs).2) := by
  unfold onclose
  rw [if_neg (by simp [h1]), if_neg h2]

/-- On an unclean close below the limit with reconnection enabled, the
counter increments and the reconnect category fires with the new value. -/
theorem onclose_unclean_fires (beh : Nat → Option String) (cs : ClientState)
    (ev : CloseEvent) (h1 : ev.wasClean = false) (h2 : cs.options.reconnect = true)
    (h3 : cs.reconnectAttempt < cs.options.reconnectAttempts) :
    (onclose beh cs ev).1.reconnectAttempt = cs.reconnectAttempt + 1 ∧
    Ev.fire Cat.reconnect (EvArg.nat (cs.reconnectAttempt + 1)) ∈ (onclose beh cs ev).2.1 := by
  rw [onclose_unclean_eq beh cs ev h1 ⟨h2, h3⟩]
  refine ⟨rfl, ?_⟩
  apply List.mem_cons_of_mem
  apply List.mem_append_left
  simp [dispatch]

/-- Claim C8: the exact inbound literal ping sends exactly one pong, bypasses
decoding, leaves the state untouched, and invokes no interceptor category. -/
theorem claim_C8_keepalive (parse : String → Except Unit Json) (beh : Nat → Option String)
    (cs : ClientState) : onmessage parse beh cs "ping" = (cs, [Ev.send "pong"]) := rfl

/-- Claim C2 (bug evaluation): with handlers 1 and 2 subscribed to a category,
the unsubscribe action of handler 1 removes handler 1 on its first call, but
its second call is not a no-op: indexOf yields -1 and splice(-1, 1) removes
the last remaining handler, here handler 2, leaving the category empty. -/
theorem claim_C2_bug_eval :
    intercept (intercept [] 1) 2 = [1, 2] ∧
    unsubscribe [1, 2] 1 = [2] ∧
    unsubscribe (unsubscribe [1, 2] 1) 1 = [] := by decide

/-- Claim C6: on an unclean close, a reconnect is scheduled exactly when
reconnection is enabled and the attempt counter is below the configured
limit; then exactly one connect is scheduled after the configured delay,
the counter increments by exactly one, and the reconnect category fires
with the new one-based attempt number.  Otherwise (counter at the limit or
reconnection disabled) nothing is scheduled and the state is unchanged. -/
theorem claim_C6_reconnect_policy (beh : Nat → Option String) (cs : ClientState)
    (ev : CloseEvent) (h : ev.wasClean = false) :
    (cs.options.reconnect = true ∧ cs.reconnectAttempt < cs.options.reconnectAttempts →
      (onclose beh cs ev).2.1.count (Ev.schedConnect cs.options.reconnectTimeout) = 1 ∧
      (∀ d, Ev.schedConnect d ∈ (onclose beh cs ev).2.1 → d = cs.options.reconnectTimeout) ∧
      (onclose beh cs ev).1.reconnectAttempt = cs.reconnectAttempt + 1 ∧
      Ev.fire Cat.reconnect (EvArg.nat (cs.reconnectAttempt + 1)) ∈ (onclose beh cs ev).2.1) ∧
    (¬(cs.options.reconnect = true ∧ cs.reconnectAttempt < cs.options.reconnectAttempts) →
      (∀ d, Ev.schedConnect d ∉ (onclose beh cs ev).2.1) ∧ (onclose beh cs ev).1 = cs) := by
  constructor
  · intro hc
    refine ⟨?_, ?_, (onclose_unclean_fires beh cs ev h hc.1 hc.2).1, ?_⟩
    · rw [onclose_unclean_events beh cs ev h hc]
      rw [List.count_append, List.count_cons_self]
      rw [List.count_eq_zero.mpr (schedConnect_not_mem_dispatch beh Cat.reconnect
        (EvArg.nat (cs.reconnectAttempt + 1)) cs.reconnectHs cs.options.reconnectTimeout)]
      rw [List.count_eq_zero.mpr (schedConnect_not_mem_closeAfter beh cs
        (dispatch beh Cat.reconnect (EvArg.nat (cs.reconnectAttempt + 1)) cs.reconnectHs).2
        cs.options.reconnectTimeout)]
    · intro d hd
      rw [onclose_unclean_events beh cs ev h hc] at hd
      rcases List.mem_append.mp hd with hd1 | hd2
      · rcases List.mem_cons.mp hd1 with heq | hd1b
        · injection heq
        · exact absurd hd1b (schedConnect_not_mem_dispatch _ _ _ _ _)
      · exact absurd hd2 (schedConnect_not_mem_closeAfter _ _ _ _)
    · exact (onclose_unclean_fires beh cs ev h hc.1 hc.2).2
  · intro hc
    refine ⟨?_, ?_⟩
    · intro d
      rw [onclose_noretry_eq beh cs ev h hc]
      exact schedConnect_not_mem_dispatch _ _ _ _ _
    · rw [onclose_noretry_eq beh cs ev h hc]

/-- Claim C6 witness: a fresh client with default options, after an unclean
close, schedules one reconnect after 1000 milliseconds, moves its counter
to one, and fires the reconnect category with attempt number one. -/
theorem claim_C6_witness :
    (baseCs.options.reconnect = true ∧ baseCs.reconnectAttempt < baseCs.options.reconnectAttempts) ∧
    (onclose behNone baseCs cexUnclean).2.1.count
      (Ev.schedConnect baseCs.options.reconnectTimeout) = 1 ∧
    (onclose behNone baseCs cexUnclean).1.reconnectAttempt = baseCs.reconnectAttempt + 1 ∧
    Ev.fire Cat.reconnect (EvArg.nat 1) ∈ (onclose behNone baseCs cexUnclean).2.1 :=
  ⟨by decide,
   ((claim_C6_reconnect_policy behNone baseCs cexUnclean rfl).1 (by decide)).1,
   ((claim_C6_reconnect_policy behNone baseCs cexUnclean rfl).1 (by decide)).2.2.1,
   ((claim_C6_reconnect_policy behNone baseCs cexUnclean rfl).1 (by decide)).2.2.2⟩

/-- Claim C1 counterexample: at a successful open after two reconnect
attempts, the open handler leaves the counter at two (it resets nothing),
and a later unclean close fires the reconnect category with attempt number
three, not one: the attempt numbering does not restart. -/
theorem claim_C1_counterexample :
    (onopen behNone cexCs).1.reconnectAttempt ≠ 0 ∧
    (onopen behNone cexCs).1.reconnectAttempt = 2 ∧
    Ev.fire Cat.reconnect (EvArg.nat 3) ∈
      (onclose behNone (onopen behNone cexCs).1 cexUnclean).2.1 ∧
    Ev.fire Cat.reconnect (EvArg.nat 1) ∉
      (onclose behNone (onopen behNone cexCs).1 cexUnclean).2.1 := by decide

/-- Claim C1 amended: the open handler fires the open category and leaves the
whole state, the reconnect attempt counter included, unchanged; after a later
unclean close (reconnection enabled, counter below the limit) the attempt
numbering therefore continues from the accumulated counter value instead of
restarting at one. -/
theorem claim_C1_amended (beh : Nat → Option String) (cs : ClientState) :
    (onopen beh cs).1 = cs ∧
    (∀ ev : CloseEvent, ev.wasClean = false → cs.options.reconnect = true →
      cs.reconnectAttempt < cs.options.reconnectAttempts →
      (onclose beh (onopen beh cs).1 ev).1.reconnectAttempt = cs.reconnectAttempt + 1 ∧
      Ev.fire Cat.reconnect (EvArg.nat (cs.reconnectAttempt + 1)) ∈
        (onclose beh (onopen beh cs).1 ev).2.1) := by
  refine ⟨rfl, ?_⟩
  intro ev h1 h2 h3
  exact onclose_unclean_fires beh cs ev h1 h2 h3

/-- Claim C1 witness: the open handler keeps the counter of the concrete
client at two and the subsequent unclean close fires attempt number three. -/
theorem claim_C1_witness :
    (onopen behNone cexCs).1 = cexCs ∧
    ((onclose behNone (onopen behNone cexCs).1 cexUnclean).1.reconnectAttempt = 3 ∧
      Ev.fire Cat.reconnect (EvArg.nat 3) ∈
        (onclose behNone (onopen behNone cexCs).1 cexUnclean).2.1) :=
  ⟨(claim_C1_amended behNone cexCs).1,
   (claim_C1_amended behNone cexCs).2 cexUnclean rfl rfl (by decide)⟩

/-- Rebuilding a string from its characters is the identity. -/
theorem mk_toList (s : String) : String.mk s.toList = s := by
  cases s; rfl

/-- Claim C4 counterexample: on the wire text with a delimiter inside the
JSON payload the source split keeps only the text up to the second
delimiter (the payload is truncated, not parsed in full), and on
delimiter-free text the key is the whole text rather than the claimed
default, with no payload at all. -/
theorem claim_C4_counterexample :
    decodeSplit "@|[1,\"a|b\"]" = ("@", some "[1,\"a") ∧
    decodeSplitSpec "@|[1,\"a|b\"]" = ("@", some "[1,\"a|b\"]") ∧
    decodeSplit "abc" = ("abc", none) ∧
    decodeSplitSpec "abc" = ("@", some "abc") := by decide

/-- Claim C4 amended: inbound decoding keeps only the first two
delimiter-separated segments of the text: the key is the text before the
first delimiter, and the payload handed to JSON.parse is only the text
between the first and the second delimiter - anything after a second
delimiter is discarded, so a payload containing the delimiter is truncated
rather than parsed in full.  When no delimiter is present at all, the key
is the entire text (the at-sign default is dead) and there is no payload
segment. -/
theorem claim_C4_amended (a b : String) (ha : '|' ∉ a.toList) :
    decodeSplit (a ++ "|" ++ b) =
      (a, some (String.mk (b.toList.takeWhile (fun ch => decide (ch ≠ '|'))))) ∧
    decodeSplit a = (a, none) := by
  constructor
  · have h1 : (a ++ "|" ++ b).toList = a.toList ++ '|' :: b.toList := by
      have hpipe : ("|" : String).toList = ['|'] := rfl
      rw [toList_append, toList_append, List.append_assoc, hpipe, List.singleton_append]
    obtain ⟨t, ht⟩ := splitChar_head '|' b.toList
    unfold decodeSplit jsSplit2
    rw [h1, splitChar_append '|' a.toList b.toList ha, ht]
    simp [mk_toList]
  · unfold decodeSplit jsSplit2
    rw [splitChar_of_not_mem '|' a.toList ha]
    simp [mk_toList]

/-- Claim C4 witness: decoding a frame whose payload contains the delimiter
keeps only the text before the second delimiter, and decoding a
delimiter-free text takes it whole as the key. -/
theorem claim_C4_witness :
    '|' ∉ ("k1" : String).toList ∧
    decodeSplit ("k1" ++ "|" ++ "x|y") = ("k1", some "x") ∧
    decodeSplit "k1" = ("k1", none) :=
  ⟨by decide, (claim_C4_amended "k1" "x|y" (by decide)).1,
   (claim_C4_amended "k1" "x|y" (by decide)).2⟩

/-- Shape of onmessage on a non-keepalive text that decodes and parses. -/
theorem onmessage_decoded_eq (parse : String → Except Unit Json) (beh : Nat → Option String)
    (cs : ClientState) (text key pd : String) (data : Json)
    (h1 : text ≠ "ping") (h2 : decodeSplit text = (key, some pd))
    (h3 : parse pd = Except.ok data) :
    onmessage parse beh cs text = wrapCatch (routeDecoded beh cs key data) := by
  unfold onmessage
  rw [if_neg h1, h2]
  have hm : (match ((key, some pd) : String × Option String).2 with
             | none => (Except.error () : Except Unit Json)
             | some pd2 => parse pd2) = Except.ok data := h3
  rw [hm]

/-- Routing never changes the state when the key is not found (the broadcast
key included): the call is a silent no-op as far as the registry goes. -/
theorem routeDecoded_state_of_lookup_none (beh : Nat → Option String) (cs : ClientState)
    (key : String) (data : Json) (hn : lookupReq cs.requests key = none) :
    (routeDecoded beh cs key data).1 = cs := by
  unfold routeDecoded
  by_cases hk : key = "@"
  · rw [if_pos hk]
  · rw [if_neg hk, hn]

/-- The catch clause never changes the state component. -/
theorem wrapCatch_state (r : ClientState × List Ev × Option String) :
    (wrapCatch r).1 = r.1 := by
  rcases r with ⟨s, evs, exn⟩
  cases exn <;> rfl

/-- An exception reaching the catch clause produces the warning effect. -/
theorem warn_mem_wrapCatch (r : ClientState × List Ev × Option String) (e : String)
    (hr : r.2.2 = some e) : Ev.warn ∈ (wrapCatch r).2 := by
  rcases r with ⟨s, evs, exn⟩
  cases exn with
  | none => simp at hr
  | some e2 => simp [wrapCatch]

/-- On a directed key whose payload's error check does not throw, the
exception escaping the routing step is exactly the one escaping the
message-category dispatch. -/
theorem routeDecoded_exn_message (beh : Nat → Option String) (cs : ClientState)
    (key : String) (data : Json) (hk : key ≠ "@") (b : Bool)
    (hb : errCodeTruthy data = Except.ok b) :
    (routeDecoded beh cs key data).2.2 = (callInterceptorsList beh cs.messageHs).2 := by
  unfold routeDecoded
  rw [if_neg hk]
  cases hl : lookupReq cs.requests key with
  | none => rfl
  | some entry =>
    rw [hb]
    rfl

/-- Claim C5 counterexample: with a single subscribed broadcast handler that
throws, an inbound broadcast frame makes the throw propagate out of the
dispatch into the message handler's catch clause, which logs a warning and
returns normally - the handler's exception is swallowed exactly like a
decode failure instead of surfacing. -/
theorem claim_C5_counterexample :
    (callInterceptorsList behBoom [0]).2 = some "boom" ∧
    onmessage parse1 behBoom csC5 "@|1" =
      (csC5, [Ev.fire Cat.broadcast (EvArg.json (Json.num 1)), Ev.invoke 0, Ev.warn]) := by
  decide

/-- Claim C5 amended: the dispatch loop invokes every currently registered
handler of the category in registration order and catches nothing itself -
a throwing handler stops the remaining handlers of that dispatch and the
exception propagates to the dispatch call site; however, for the broadcast
and message categories fired from the inbound message handler, that
propagated exception is then caught by the message handler's try block and
logged as a warning, exactly like a decode failure, rather than surfacing. -/
theorem claim_C5_amended (beh : Nat → Option String) :
    (∀ hs : List Nat, (∀ g ∈ hs, beh g = none) → callInterceptorsList beh hs = (hs, none)) ∧
    (∀ (pre post : List Nat) (hh : Nat) (e : String),
      (∀ g ∈ pre, beh g = none) → beh hh = some e →
      callInterceptorsList beh (pre ++ hh :: post) = (pre ++ [hh], some e)) ∧
    (∀ (parse : String → Except Unit Json) (cs : ClientState) (text pd : String)
      (data : Json) (e : String),
      text ≠ "ping" → decodeSplit text = ("@", some pd) → parse pd = Except.ok data →
      (callInterceptorsList beh cs.broadcastHs).2 = some e →
      (onmessage parse beh cs text).1 = cs ∧ Ev.warn ∈ (onmessage parse beh cs text).2) ∧
    (∀ (parse : String → Except Unit Json) (cs : ClientState) (text key pd : String)
      (data : Json) (e : String) (b : Bool),
      text ≠ "ping" → decodeSplit text = (key, some pd) → key ≠ "@" →
      parse pd = Except.ok data → errCodeTruthy data = Except.ok b →
      (callInterceptorsList beh cs.messageHs).2 = some e →
      Ev.warn ∈ (onmessage parse beh cs text).2 ∧
      (lookupReq cs.requests key = none → (onmessage parse beh cs text).1 = cs)) := by
  refine ⟨?_, ?_, ?_, ?_⟩
  · intro hs hok
    induction hs with
    | nil => rfl
    | cons g t ih =>
      have hg : beh g = none := hok g (List.mem_cons_self g t)
      have ht : ∀ x ∈ t, beh x = none := fun x hx => hok x (List.mem_cons_of_mem g hx)
      simp [callInterceptorsList, hg, ih ht]
  · intro pre post hh e hok hb
    induction pre with
    | nil => simp [callInterceptorsList, hb]
    | cons g t ih =>
      have hg : beh g = none := hok g (List.mem_cons_self g t)
      have ht : ∀ x ∈ t, beh x = none := fun x hx => hok x (List.mem_cons_of_mem g hx)
      simp [callInterceptorsList, hg, ih ht]
  · intro parse cs text pd data e h1 h2 h3 h4
    rw [onmessage_decoded_eq parse beh cs text "@" pd data h1 h2 h3]
    have hr : routeDecoded beh cs "@" data =
        (cs, (dispatch beh Cat.broadcast (EvArg.json data) cs.broadcastHs).1, some e) := by
      unfold routeDecoded
      rw [if_pos rfl]
      show (cs, (dispatch beh Cat.broadcast (EvArg.json data) cs.broadcastHs).1,
            (dispatch beh Cat.broadcast (EvArg.json data) cs.broadcastHs).2) = _
      rw [show (dispatch beh Cat.broadcast (EvArg.json data) cs.broadcastHs).2 = some e from h4]
    rw [hr]
    unfold wrapCatch
    exact ⟨rfl, by simp⟩
  · intro parse cs text key pd data e b h1 h2 hk h3 hb h4
    rw [onmessage_decoded_eq parse beh cs text key pd data h1 h2 h3]
    constructor
    · apply warn_mem_wrapCatch _ e
      rw [routeDecoded_exn_message beh cs key data hk b hb]
      exact h4
    · intro hn
      rw [wrapCatch_state]
      exact routeDecoded_state_of_lookup_none beh cs key data hn

/-- A deleted key is no longer found in the requests record. -/
theorem lookupReq_removeKey (rs : List (String × Entry)) (key : String) :
    lookupReq (removeKey rs key) key = none := by
  induction rs with
  | nil => rfl
  | cons p t ih =>
    rcases p with ⟨k, e⟩
    by_cases hk : k = key
    · rw [show removeKey ((k, e) :: t) key = removeKey t key by simp [removeKey, hk]]
      exact ih
    · rw [show removeKey ((k, e) :: t) key = (k, e) :: removeKey t key by
        simp [removeKey, hk]]
      show lookupReq ((k, e) :: removeKey t key) key = none
      simp [lookupReq, hk, ih]

/-- Settling a pending future records the settlement value. -/
theorem lookupFut_settle_pending (fs : List (Nat × FState)) (f : Nat) (v : FState)
    (hp : lookupFut fs f = some FState.pending) :
    lookupFut (settle f v fs) f = some v := by
  induction fs with
  | nil => simp [lookupFut] at hp
  | cons p rest ih =>
    rcases p with ⟨id, s⟩
    by_cases hid : id = f
    · subst hid
      simp only [lookupFut, if_pos rfl] at hp
      injection hp with hs
      subst hs
      simp [settle, lookupFut]
    · simp only [settle, lookupFut, if_neg hid] at hp ⊢
      exact ih hp

/-- Settling an already settled future is ignored: the recorded settlement
value stays. -/
theorem lookupFut_settle_of_ne_pending (fs : List (Nat × FState)) (f : Nat) (v s : FState)
    (hs : lookupFut fs f = some s) (hne : s ≠ FState.pending) :
    lookupFut (settle f v fs) f = some s := by
  induction fs with
  | nil => simp [lookupFut] at hs
  | cons p rest ih =>
    rcases p with ⟨id, s2⟩
    by_cases hid : id = f
    · subst hid
      simp only [lookupFut, if_pos rfl] at hs
      injection hs with h2
      subst h2
      have hms : (match s2 with | FState.pending => v | o => o) = s2 := by
        cases s2
        · exact absurd rfl hne
        · rfl
        · rfl
      simp [settle, lookupFut, hms]
    · simp only [settle, lookupFut, if_neg hid] at hs ⊢
      exact ih hs

/-- State component of routing a directed message whose key is found. -/
theorem routeDecoded_found_state (beh : Nat → Option String) (cs : ClientState)
    (key : String) (data : Json) (entry : Entry) (b : Bool)
    (hk : key ≠ "@")
    (he : lookupReq cs.requests key = some entry)
    (hb : errCodeTruthy data = Except.ok b) :
    (routeDecoded beh cs key data).1 =
      if b then
        { cs with futures := settle entry.future (FState.rejected data) cs.futures,
                  requests := removeKey cs.requests key }
      else
        { cs with futures := settle entry.future (FState.resolved data) cs.futures,
                  activeTimers := clearTimerH entry.timer cs.activeTimers,
                  requests := removeKey cs.requests key } := by
  unfold routeDecoded
  rw [if_neg hk, he, hb]

/-- Claim C3 counterexample: a pending request under key k with an armed
timeout timer, settled by a payload carrying a nested error code: the entry
is removed and the future rejects, but the timeout timer is NOT cancelled -
it stays armed, where the claim requires it cancelled on both settlement
paths. -/
theorem claim_C3_counterexample :
    lookupReq cs3.requests "k" = some (Entry.mk 0 (some 5)) ∧
    (routeDecoded behNone cs3 "k" errJson).1.requests = [] ∧
    (routeDecoded behNone cs3 "k" errJson).1.futures = [(0, FState.rejected errJson)] ∧
    (routeDecoded behNone cs3 "k" errJson).1.activeTimers = [(5, "k", 0)] ∧
    (routeDecoded behNone cs3 "k" errJson).1.activeTimers ≠ [] := by decide

/-- Claim C3 amended: settling a found pending request removes its registry
entry and settles its future exactly once - the recorded settlement survives
any later settlement attempt, and a repeated delivery under the same key
no longer changes the state - and the resolve path cancels the pending
timeout timer; the reject path however does NOT cancel the timer: the
timers are left untouched there.  A key that is not found changes nothing:
the call is a silent no-op for the registry. -/
theorem claim_C3_amended (beh : Nat → Option String) (cs : ClientState) (key : String)
    (data : Json) (entry : Entry) (b : Bool)
    (hk : key ≠ "@")
    (he : lookupReq cs.requests key = some entry)
    (hb : errCodeTruthy data = Except.ok b) :
    lookupReq (routeDecoded beh cs key data).1.requests key = none ∧
    (routeDecoded beh cs key data).1.futures =
      settle entry.future (if b then FState.rejected data else FState.resolved data) cs.futures ∧
    (routeDecoded beh cs key data).1.activeTimers =
      (if b then cs.activeTimers else clearTimerH entry.timer cs.activeTimers) ∧
    (lookupFut cs.futures entry.future = some FState.pending →
      lookupFut (routeDecoded beh cs key data).1.futures entry.future =
        some (if b then FState.rejected data else FState.resolved data)) ∧
    (lookupFut cs.futures entry.future = some FState.pending → ∀ v,
      lookupFut (settle entry.future v (routeDecoded beh cs key data).1.futures) entry.future =
        some (if b then FState.rejected data else FState.resolved data)) ∧
    (∀ data2 : Json, (routeDecoded beh (routeDecoded beh cs key data).1 key data2).1 =
      (routeDecoded beh cs key data).1) ∧
    (∀ (k2 : String) (d2 : Json), lookupReq cs.requests k2 = none →
      (routeDecoded beh cs k2 d2).1 = cs) := by
  have hstate := routeDecoded_found_state beh cs key data entry b hk he hb
  cases b with
  | true =>
    rw [if_pos rfl] at hstate
    rw [hstate]
    refine ⟨lookupReq_removeKey cs.requests key, rfl, rfl,
      fun hp => lookupFut_settle_pending cs.futures entry.future _ hp,
      fun hp v => lookupFut_settle_of_ne_pending _ _ _ _
        (lookupFut_settle_pending cs.futures entry.future _ hp) (by simp),
      fun data2 => routeDecoded_state_of_lookup_none beh _ key data2
        (lookupReq_removeKey cs.requests key),
      fun k2 d2 hn2 => routeDecoded_state_of_lookup_none beh cs k2 d2 hn2⟩
  | false =>
    rw [if_neg (by simp)] at hstate
    rw [hstate]
    refine ⟨lookupReq_removeKey cs.requests key, rfl, rfl,
      fun hp => lookupFut_settle_pending cs.futures entry.future _ hp,
      fun hp v => lookupFut_settle_of_ne_pending _ _ _ _
        (lookupFut_settle_pending cs.futures entry.future _ hp) (by simp),
      fun data2 => routeDecoded_state_of_lookup_none beh _ key data2
        (lookupReq_removeKey cs.requests key),
      fun k2 d2 hn2 => routeDecoded_state_of_lookup_none beh cs k2 d2 hn2⟩

/-- Claim C3 witness: the amended statement run on the concrete client with
one pending request and a concrete error payload. -/
theorem claim_C3_witness :
    lookupReq (routeDecoded behNone cs3 "k" errJson).1.requests "k" = none ∧
    lookupFut (routeDecoded behNone cs3 "k" errJson).1.futures 0 =
      some (FState.rejected errJson) ∧
    (routeDecoded behNone cs3 "k" errJson).1.activeTimers = cs3.activeTimers ∧
    (routeDecoded behNone (routeDecoded behNone cs3 "k" errJson).1 "k" errJson).1 =
      (routeDecoded behNone cs3 "k" errJson).1 :=
  ⟨(claim_C3_amended behNone cs3 "k" errJson (Entry.mk 0 (some 5)) true
      (by decide) (by decide) rfl).1,
   (claim_C3_amended behNone cs3 "k" errJson (Entry.mk 0 (some 5)) true
      (by decide) (by decide) rfl).2.2.2.1 (by decide),
   (claim_C3_amended behNone cs3 "k" errJson (Entry.mk 0 (some 5)) true
      (by decide) (by decide) rfl).2.2.1,
   (claim_C3_amended behNone cs3 "k" errJson (Entry.mk 0 (some 5)) true
      (by decide) (by decide) rfl).2.2.2.2.2.1 errJson⟩

/-- A fresh timer handle appended at the end is found by its handle. -/
theorem find?_append_fresh (ts : List (Nat × String × Nat)) (h : Nat) (k : String) (f : Nat)
    (hfr : ∀ t ∈ ts, t.1 ≠ h) :
    (ts ++ [(h, k, f)]).find? (fun p => decide (p.1 = h)) = some (h, k, f) := by
  induction ts with
  | nil => simp [List.find?]
  | cons t rest ih =>
    have ht : t.1 ≠ h := hfr t (List.mem_cons_self t rest)
    have hr : ∀ x ∈ rest, x.1 ≠ h := fun x hx => hfr x (List.mem_cons_of_mem t hx)
    simp [List.find?, ht, ih hr]

/-- Settling a freshly appended pending future rewrites just that entry. -/
theorem settle_append_fresh (fs : List (Nat × FState)) (f : Nat) (v : FState)
    (hfr : ∀ p ∈ fs, p.1 ≠ f) :
    settle f v (fs ++ [(f, FState.pending)]) = fs ++ [(f, v)] := by
  induction fs with
  | nil => simp [settle]
  | cons p rest ih =>
    rcases p with ⟨id, s⟩
    have hp : id ≠ f := hfr (id, s) (List.mem_cons_self _ _)
    have hr : ∀ x ∈ rest, x.1 ≠ f := fun x hx => hfr x (List.mem_cons_of_mem _ hx)
    show settle f v ((id, s) :: (rest ++ [(f, FState.pending)])) =
      (id, s) :: (rest ++ [(f, v)])
    simp only [settle, if_neg hp]
    rw [ih hr]

/-- A freshly appended future is looked up at the end of the store. -/
theorem lookupFut_append_fresh (fs : List (Nat × FState)) (f : Nat) (v : FState)
    (hfr : ∀ p ∈ fs, p.1 ≠ f) :
    lookupFut (fs ++ [(f, v)]) f = some v := by
  induction fs with
  | nil => simp [lookupFut]
  | cons p rest ih =>
    rcases p with ⟨id, s⟩
    have hp : id ≠ f := hfr (id, s) (List.mem_cons_self _ _)
    have hr : ∀ x ∈ rest, x.1 ≠ f := fun x hx => hfr x (List.mem_cons_of_mem _ hx)
    show lookupFut ((id, s) :: (rest ++ [(f, v)])) f = some v
    simp only [lookupFut, if_neg hp]
    exact ih hr

/-- Shape of registerRequest under a nonzero configured request timeout. -/
theorem registerRequest_timeout_eq (cs : ClientState) (key : String)
    (hto : cs.options.requestTimeout ≠ 0) :
    registerRequest cs key =
      ({ cs with
          requests := (key, Entry.mk cs.nextFuture (some cs.nextTimer)) ::
            removeKey cs.requests key,
          activeTimers := cs.activeTimers ++ [(cs.nextTimer, key, cs.nextFuture)],
          futures := cs.futures ++ [(cs.nextFuture, FState.pending)],
          nextTimer := cs.nextTimer + 1,
          nextFuture := cs.nextFuture + 1 },
       [Ev.schedTimer cs.nextTimer cs.options.requestTimeout]) := by
  unfold registerRequest
  rw [if_pos hto]

/-- Shape of a timer firing whose handle is found among the armed timers. -/
theorem timerFire_found_eq (cs : ClientState) (h : Nat) (t : Nat × String × Nat)
    (hf : cs.activeTimers.find? (fun p => decide (p.1 = h)) = some t) :
    timerFire cs h =
      { cs with activeTimers := cs.activeTimers.filter (fun p => decide (p.1 ≠ h)),
                requests := removeKey cs.requests t.2.1,
                futures := settle t.2.2 (FState.rejected timeoutJson) cs.futures } := by
  unfold timerFire
  rw [hf]

/-- Claim C7: registering a request under a nonzero configured timeout
schedules exactly one timeout timer with the configured duration; when that
timer fires with no response having arrived, the registry entry is removed
and the request's future rejects with the timeout payload, whose code field
is the string timeout; a response arriving afterwards for the now-removed
key changes no registry state and settles no future. -/
theorem claim_C7_timeout (beh : Nat → Option String) (cs : ClientState) (key : String)
    (hto : cs.options.requestTimeout ≠ 0)
    (hft : ∀ t ∈ cs.activeTimers, t.1 < cs.nextTimer)
    (hff : ∀ p ∈ cs.futures, p.1 < cs.nextFuture) :
    (registerRequest cs key).2 = [Ev.schedTimer cs.nextTimer cs.options.requestTimeout] ∧
    lookupReq (timerFire (registerRequest cs key).1 cs.nextTimer).requests key = none ∧
    lookupFut (timerFire (registerRequest cs key).1 cs.nextTimer).futures cs.nextFuture =
      some (FState.rejected timeoutJson) ∧
    jsGet timeoutJson "code" = some (Json.str "timeout") ∧
    (∀ data : Json,
      (routeDecoded beh (timerFire (registerRequest cs key).1 cs.nextTimer) key data).1 =
        timerFire (registerRequest cs key).1 cs.nextTimer) := by
  have hreg := registerRequest_timeout_eq cs key hto
  have hfind : ((registerRequest cs key).1).activeTimers.find?
      (fun p => decide (p.1 = cs.nextTimer)) = some (cs.nextTimer, key, cs.nextFuture) := by
    rw [hreg]
    exact find?_append_fresh cs.activeTimers cs.nextTimer key cs.nextFuture
      (fun t ht => Nat.ne_of_lt (hft t ht))
  have hfire := timerFire_found_eq (registerRequest cs key).1 cs.nextTimer
    (cs.nextTimer, key, cs.nextFuture) hfind
  have hfr2 : ∀ p ∈ cs.futures, p.1 ≠ cs.nextFuture := fun p hp => Nat.ne_of_lt (hff p hp)
  have hremoved : lookupReq (timerFire (registerRequest cs key).1 cs.nextTimer).requests
      key = none := by
    rw [hfire]
    exact lookupReq_removeKey _ key
  refine ⟨?_, hremoved, ?_, rfl, ?_⟩
  · rw [hreg]
  · rw [hfire, hreg]
    have hsettle := settle_append_fresh cs.futures cs.nextFuture
      (FState.rejected timeoutJson) hfr2
    have hlook := lookupFut_append_fresh cs.futures cs.nextFuture
      (FState.rejected timeoutJson) hfr2
    have hcomp : lookupFut (settle cs.nextFuture (FState.rejected timeoutJson)
        (cs.futures ++ [(cs.nextFuture, FState.pending)])) cs.nextFuture =
        some (FState.rejected timeoutJson) := by
      rw [hsettle]; exact hlook
    exact hcomp
  · intro data
    exact routeDecoded_state_of_lookup_none beh _ key data hremoved

/-- Claim C7 witness: a fresh client with the default five-minute request
timeout, one registered request and its timer fired. -/
theorem claim_C7_witness :
    (registerRequest baseCs "k").2 = [Ev.schedTimer 0 300000] ∧
    lookupReq (timerFire (registerRequest baseCs "k").1 0).requests "k" = none ∧
    lookupFut (timerFire (registerRequest baseCs "k").1 0).futures 0 =
      some (FState.rejected timeoutJson) ∧
    (routeDecoded behNone (timerFire (registerRequest baseCs "k").1 0) "k" errJson).1 =
      timerFire (registerRequest baseCs "k").1 0 :=
  ⟨(claim_C7_timeout behNone baseCs "k" (by decide) (by decide) (by decide)).1,
   (claim_C7_timeout behNone baseCs "k" (by decide) (by decide) (by decide)).2.1,
   (claim_C7_timeout behNone baseCs "k" (by decide) (by decide) (by decide)).2.2.1,
   (claim_C7_timeout behNone baseCs "k" (by decide) (by decide) (by decide)).2.2.2.2 errJson⟩

/-- Resolving the freshly appended open-wait future marks just that entry. -/
theorem resolveWf_append_fresh (fs : List (Nat × Bool)) (f : Nat)
    (hfr : ∀ p ∈ fs, p.1 ≠ f) :
    resolveWf f (fs ++ [(f, false)]) = fs ++ [(f, true)] := by
  induction fs with
  | nil => simp [resolveWf]
  | cons p rest ih =>
    rcases p with ⟨id, b⟩
    have hp : id ≠ f := hfr (id, b) (List.mem_cons_self _ _)
    have hr : ∀ x ∈ rest, x.1 ≠ f := fun x hx => hfr x (List.mem_cons_of_mem _ hx)
    show resolveWf f ((id, b) :: (rest ++ [(f, false)])) = (id, b) :: (rest ++ [(f, true)])
    have hh : resolveWf f ((id, b) :: (rest ++ [(f, false)])) =
        (id, b) :: resolveWf f (rest ++ [(f, false)]) := by
      simp [resolveWf, hp]
    rw [hh, ih hr]

/-- A freshly appended open-wait future is looked up at the end. -/
theorem lookupWf_append_fresh (fs : List (Nat × Bool)) (f : Nat) (b : Bool)
    (hfr : ∀ p ∈ fs, p.1 ≠ f) :
    lookupWf (fs ++ [(f, b)]) f = some b := by
  induction fs with
  | nil => simp [lookupWf]
  | cons p rest ih =>
    rcases p with ⟨id, b2⟩
    have hp : id ≠ f := hfr (id, b2) (List.mem_cons_self _ _)
    have hr : ∀ x ∈ rest, x.1 ≠ f := fun x hx => hfr x (List.mem_cons_of_mem _ hx)
    show lookupWf ((id, b2) :: (rest ++ [(f, b)])) f = some b
    simp only [lookupWf, if_neg hp]
    exact ih hr

/-- Shape of waitForConnection when no shared pending promise exists. -/
theorem waitForConnection_none_eq (cs : ClientState) (hnone : cs.connectingPromise = none) :
    waitForConnection cs =
      ({ cs with connectingPromise := some cs.nextWf,
                 wfFutures := cs.wfFutures ++ [(cs.nextWf, false)],
                 poll := some (cs.nextTimer, cs.nextWf),
                 nextWf := cs.nextWf + 1,
                 nextTimer := cs.nextTimer + 1 }, cs.nextWf) := by
  unfold waitForConnection
  rw [hnone]

/-- Claim C9: starting from a state with no shared pending open-wait
promise, a first wait creates the shared future and a second concurrent
wait returns that same future with no state change (all callers share one
future and hence observe the same first open); polling ticks before the
socket is open do nothing; the tick that observes the open socket emits
exactly one interval cancellation, resolves the shared future, and clears
the shared promise; the now-cancelled interval ticks no further; and a
subsequent wait after that resolution starts a fresh future. -/
theorem claim_C9_wait (cs : ClientState)
    (hnone : cs.connectingPromise = none)
    (hfr : ∀ p ∈ cs.wfFutures, p.1 ≠ cs.nextWf) :
    (waitForConnection (waitForConnection cs).1).2 = (waitForConnection cs).2 ∧
    (waitForConnection (waitForConnection cs).1).1 = (waitForConnection cs).1 ∧
    (cs.socketOpen = false →
      pollTick (waitForConnection cs).1 = ((waitForConnection cs).1, [])) ∧
    (pollTick (socketBecomesOpen (waitForConnection cs).1)).2 =
      [Ev.clearedInterval cs.nextTimer] ∧
    lookupWf (pollTick (socketBecomesOpen (waitForConnection cs).1)).1.wfFutures
      (waitForConnection cs).2 = some true ∧
    (pollTick (socketBecomesOpen (waitForConnection cs).1)).1.connectingPromise = none ∧
    pollTick (pollTick (socketBecomesOpen (waitForConnection cs).1)).1 =
      ((pollTick (socketBecomesOpen (waitForConnection cs).1)).1, []) ∧
    (waitForConnection (pollTick (socketBecomesOpen (waitForConnection cs).1)).1).2 ≠
      (waitForConnection cs).2 := by
  have hw := waitForConnection_none_eq cs hnone
  rw [hw]
  refine ⟨rfl, rfl, ?_, rfl, ?_, rfl, rfl, ?_⟩
  · intro hs
    simp [pollTick, hs]
  · have h1 := resolveWf_append_fresh cs.wfFutures cs.nextWf hfr
    have h2 := lookupWf_append_fresh cs.wfFutures cs.nextWf true hfr
    show lookupWf (resolveWf cs.nextWf (cs.wfFutures ++ [(cs.nextWf, false)])) cs.nextWf =
      some true
    rw [h1]
    exact h2
  · show cs.nextWf + 1 ≠ cs.nextWf
    exact Nat.succ_ne_self cs.nextWf

/-- Claim C9 witness: the open-wait protocol run on a fresh client. -/
theorem claim_C9_witness :
    (waitForConnection (waitForConnection baseCs).1).2 = (waitForConnection baseCs).2 ∧
    (pollTick (socketBecomesOpen (waitForConnection baseCs).1)).2 =
      [Ev.clearedInterval 0] ∧
    lookupWf (pollTick (socketBecomesOpen (waitForConnection baseCs).1)).1.wfFutures
      (waitForConnection baseCs).2 = some true ∧
    (pollTick (socketBecomesOpen (waitForConnection baseCs).1)).1.connectingPromise = none ∧
    (waitForConnection (pollTick (socketBecomesOpen (waitForConnection baseCs).1)).1).2 ≠
      (waitForConnection baseCs).2 :=
  ⟨(claim_C9_wait baseCs rfl (by decide)).1,
   (claim_C9_wait baseCs rfl (by decide)).2.2.2.1,
   (claim_C9_wait baseCs rfl (by decide)).2.2.2.2.1,
   (claim_C9_wait baseCs rfl (by decide)).2.2.2.2.2.1,
   (claim_C9_wait baseCs rfl (by decide)).2.2.2.2.2.2.2⟩

/-- Shape of a generated correlation key: the first six fractional digits. -/
theorem generateKey_eq (frac : List Nat) :
    generateKey frac = String.mk ((frac.map digitChar26).take 6) := by
  cases frac with
  | nil => rfl
  | cons d t =>
    unfold generateKey toStringBase26 jsSubstring
    rw [if_neg (by simp)]
    rw [toList_append]
    rfl

/-- Every radix-26 digit character is a decimal digit or a letter between
a and p. -/
theorem digitChar26_prop (d : Nat) (hd : d < 26) :
    ('0' ≤ digitChar26 d ∧ digitChar26 d ≤ '9') ∨
    ('a' ≤ digitChar26 d ∧ digitChar26 d ≤ 'p') := by
  interval_cases d <;> decide

/-- The key segment of a framed text is recovered exactly when the key is
free of the delimiter. -/
theorem decodeSplit_key (k rest : String) (hk : '|' ∉ k.toList) :
    (decodeSplit (k ++ "|" ++ rest)).1 = k := by
  obtain ⟨s0, t, hst⟩ := List.exists_cons_of_ne_nil (splitChar_ne_nil '|' rest.toList)
  have h1 : (k ++ "|" ++ rest).toList = k.toList ++ '|' :: rest.toList := by
    have hpipe : ("|" : String).toList = ['|'] := rfl
    rw [toList_append, toList_append, List.append_assoc, hpipe, List.singleton_append]
  unfold decodeSplit jsSplit2
  rw [h1, splitChar_append '|' _ _ hk, hst]
  simp [mk_toList]

/-- Claim C10: a generated correlation key is at most six characters long,
all of them radix-26 digit characters (decimal digits or letters a to p);
hence it is never the broadcast key and never contains the framing
delimiter, an inbound response frame keyed by it is routed as a directed
message rather than a broadcast, and the key segment of an outbound frame
built from it is recovered unambiguously by the inbound split. -/
theorem claim_C10_key (frac : List Nat) (h : ∀ d ∈ frac, d < 26) :
    (generateKey frac).length ≤ 6 ∧
    (∀ c ∈ (generateKey frac).toList, ('0' ≤ c ∧ c ≤ '9') ∨ ('a' ≤ c ∧ c ≤ 'p')) ∧
    generateKey frac ≠ "@" ∧
    '|' ∉ (generateKey frac).toList ∧
    ∀ rest : String, (decodeSplit (generateKey frac ++ "|" ++ rest)).1 = generateKey frac := by
  have hchars : ∀ c ∈ (generateKey frac).toList,
      ('0' ≤ c ∧ c ≤ '9') ∨ ('a' ≤ c ∧ c ≤ 'p') := by
    intro c hc
    rw [generateKey_eq] at hc
    have hc2 : c ∈ frac.map digitChar26 := List.take_subset 6 _ hc
    obtain ⟨d, hd, hdc⟩ := List.mem_map.mp hc2
    rw [← hdc]
    exact digitChar26_prop d (h d hd)
  have hpipe : '|' ∉ (generateKey frac).toList := by
    intro hmem
    exact absurd (hchars '|' hmem) (by decide)
  refine ⟨?_, hchars, ?_, hpipe, ?_⟩
  · rw [generateKey_eq]
    have hlen : (String.mk ((frac.map digitChar26).take 6)).length =
        ((frac.map digitChar26).take 6).length := rfl
    rw [hlen, List.length_take]
    exact min_le_left _ _
  · intro hk
    have h1 : '@' ∈ (generateKey frac).toList := by
      rw [hk]; decide
    exact absurd (hchars '@' h1) (by decide)
  · intro rest
    exact decodeSplit_key (generateKey frac) rest hpipe

/-- Claim C10 witness: the key generated from the digit expansion 10, 0, 25
is a0p, which is short, digits-only, distinct from the broadcast key, free
of the delimiter, and recovered from a concrete outbound frame. -/
theorem claim_C10_witness :
    (generateKey [10, 0, 25]).length ≤ 6 ∧
    generateKey [10, 0, 25] ≠ "@" ∧
    '|' ∉ (generateKey [10, 0, 25]).toList ∧
    (decodeSplit (generateKey [10, 0, 25] ++ "|" ++ "[1,2]")).1 = generateKey [10, 0, 25] :=
  ⟨(claim_C10_key [10, 0, 25] (by decide)).1,
   (claim_C10_key [10, 0, 25] (by decide)).2.2.1,
   (claim_C10_key [10, 0, 25] (by decide)).2.2.2.1,
   (claim_C10_key [10, 0, 25] (by decide)).2.2.2.2 "[1,2]"⟩

/-- Claim C5 witness: concrete runs of the amended statement, with the empty
and the one-element handler lists and the concrete throwing handler, on a
broadcast frame as well as on a directed frame whose message handler throws. -/
theorem claim_C5_witness :
    callInterceptorsList behBoom [] = ([], none) ∧
    callInterceptorsList behBoom ([] ++ 0 :: []) = ([] ++ [0], some "boom") ∧
    ((onmessage parse1 behBoom csC5 "@|1").1 = csC5 ∧
      Ev.warn ∈ (onmessage parse1 behBoom csC5 "@|1").2) ∧
    Ev.warn ∈ (onmessage parse1 behBoom csC5m "k|1").2 ∧
    (onmessage parse1 behBoom csC5m "k|1").1 = csC5m :=
  ⟨(claim_C5_amended behBoom).1 [] (by decide),
   (claim_C5_amended behBoom).2.1 [] [] 0 "boom" (by decide) (by decide),
   (claim_C5_amended behBoom).2.2.1 parse1 csC5 "@|1" "1" (Json.num 1) "boom"
     (by decide) (by decide) rfl (by decide),
   ((claim_C5_amended behBoom).2.2.2 parse1 csC5m "k|1" "k" "1" (Json.num 1) "boom" false
     (by decide) (by decide) (by decide) rfl rfl (by decide)).1,
   ((claim_C5_amended behBoom).2.2.2 parse1 csC5m "k|1" "k" "1" (Json.num 1) "boom" false
     (by decide) (by decide) (by decide) rfl rfl (by decide)).2 (by decide)⟩

end DarkWS
